import Mathlib

/-!  Verification development for the CTC beam-search decoder interface
     declared in native_client/ctcdecode/ctc_beam_search_decoder.h.

     The header gives inline bodies for the three scorer predicates of
     DecoderState (has_scorer, has_word_level_scorer, has_char_level_scorer);
     those are transcribed directly.  The member functions init, next and
     decode and the two free functions are only declared there, their
     translation units are absent from this tree, so their behaviour is
     modelled from the design document (sections 4.2-4.4).

     Probability masses are kept in the probability domain over ℚ: the
     document's log-sum-exp accumulation of log-masses is plain addition of
     masses here, and adding a language-model log-score plus insertion bonus
     is multiplication by a positive weight.  Ranking hypotheses by combined
     log-score is the same as ranking by mass, since log is monotone, so all
     ordering and pruning statements transfer unchanged. -/

/-- The external alphabet, consumed read-only.  The design document lists the
blank id and the space/word-boundary id as part of the configuration the
decoder reads at initialisation, so the model carries them here. -/
structure Alphabet where
  size : Nat
  space_id : Nat
  blank_id : Nat

/-- The external scorer capability.  ext_weight t c is the multiplicative
(probability-domain) form of the language-model log-score plus word-insertion
bonus for extending text t with class c; eou_weight is the optional
end-of-utterance term applied at decode time. -/
structure Scorer where
  char_based : Bool
  ext_weight : List Nat → Nat → ℚ
  eou_weight : List Nat → ℚ

def Scorer.is_character_based (s : Scorer) : Bool := s.char_based

/-- State of the incremental decoder.  Beam entries are kept as
(decoded text, blank-ending mass, nonblank-ending mass) triples; the trie of
the implementation is a sharing optimisation over exactly these texts, since
alignments collapsing to the same text are merged into one node. -/
structure DecoderState where
  abs_time_step_ : Int
  space_id_ : Nat
  blank_id_ : Nat
  beam_size_ : Int
  cutoff_prob_ : ℚ
  cutoff_top_n_ : Int
  alphabet_ : Alphabet
  ext_scorer_ : Option Scorer
  prefixes_ : List (List Nat × ℚ × ℚ)

/-- Transcribed from the header: ext_scorer_ != nullptr. -/
def DecoderState.has_scorer (st : DecoderState) : Bool :=
  st.ext_scorer_.isSome

/-- Transcribed from the header: has_scorer() && !ext_scorer_->is_character_based().
The match mirrors the short-circuit of &&: the scorer is only consulted after
has_scorer() has held. -/
def DecoderState.has_word_level_scorer (st : DecoderState) : Bool :=
  match st.ext_scorer_ with
  | none => false
  | some s => !s.is_character_based

/-- Transcribed from the header: the body is character-for-character the same
as has_word_level_scorer, i.e. it also tests the NEGATION of
is_character_based(). -/
def DecoderState.has_char_level_scorer (st : DecoderState) : Bool :=
  match st.ext_scorer_ with
  | none => false
  | some s => !s.is_character_based

/-- Upsert into the beam association list: add the two mass increments to the
entry for key if present, else append a fresh entry.  This is the model of
extending the trie / merging alignments that collapse to the same text. -/
def addMass (l : List (List Nat × ℚ × ℚ)) (key : List Nat) (db dnb : ℚ) :
    List (List Nat × ℚ × ℚ) :=
  match l with
  | [] => [(key, db, dnb)]
  | e :: rest =>
    if e.1 = key then (e.1, e.2.1 + db, e.2.2 + dnb) :: rest
    else e :: addMass rest key db dnb

/-- Modelled from the spec: the scorer fusion rule of section 4.2.  In
character-based mode every new character triggers a query; in word-based mode
only the space symbol does; with no scorer every extension carries the fixed
neutral weight 1 (zero log contribution). -/
def extWeight (sc : Option Scorer) (space : Nat) (t : List Nat) (c : Nat) : ℚ :=
  match sc with
  | none => 1
  | some s =>
    if s.is_character_based then s.ext_weight t c
    else if c = space then s.ext_weight t c else 1

/-- Modelled from the spec: step 2 of the per-timestep expansion (section
4.3) for one beam entry e and one retained class cp.  A blank accumulates
into e's blank mass; a repeat of the most recently emitted symbol merges its
nonblank portion into e's nonblank accumulator (CTC repeat-collapse) while
its blank-preceded portion extends the text; any other class extends the
text, weighted by the scorer fusion rule. -/
def expandClass (blank space : Nat) (sc : Option Scorer)
    (e : List Nat × ℚ × ℚ) (acc : List (List Nat × ℚ × ℚ)) (cp : Nat × ℚ) :
    List (List Nat × ℚ × ℚ) :=
  if cp.1 = blank then
    addMass acc e.1 ((e.2.1 + e.2.2) * cp.2) 0
  else if e.1.getLast? = some cp.1 then
    addMass (addMass acc e.1 0 (e.2.2 * cp.2))
      (e.1 ++ [cp.1]) 0 (e.2.1 * cp.2 * extWeight sc space e.1 cp.1)
  else
    addMass acc (e.1 ++ [cp.1]) 0 ((e.2.1 + e.2.2) * cp.2 * extWeight sc space e.1 cp.1)

/-- Expand one beam entry by every retained class of this timestep. -/
def expandEntry (blank space : Nat) (sc : Option Scorer) (cand : List (Nat × ℚ))
    (acc : List (List Nat × ℚ × ℚ)) (e : List Nat × ℚ × ℚ) :
    List (List Nat × ℚ × ℚ) :=
  cand.foldl (expandClass blank space sc e) acc

/-- Stable sort, descending by the key f. -/
def sortDescBy {α : Type} (f : α → ℚ) (l : List α) : List α :=
  List.insertionSort (fun a b => f b ≤ f a) l

/-- Smallest leading segment of the (descending-sorted) candidate list whose
cumulative probability mass reaches the cutoff. -/
def takeUntilMass : List (Nat × ℚ) → ℚ → List (Nat × ℚ)
  | [], _ => []
  | x :: xs, c => if c ≤ x.2 then [x] else x :: takeUntilMass xs (c - x.2)

/-- Modelled from the spec: step 1 of section 4.3 — rank classes of the
timestep by probability descending, keep the smallest leading segment whose
cumulative mass reaches cutoff_prob, capped at cutoff_top_n classes. -/
def prunedClasses (row : List ℚ) (cutoff_prob : ℚ) (cutoff_top_n : Nat) :
    List (Nat × ℚ) :=
  (takeUntilMass (sortDescBy Prod.snd row.enum) cutoff_prob).take cutoff_top_n

/-- Combined score of a beam entry: total mass of alignments collapsing to
its text (the probability-domain form of the combined log score). -/
def totalMass (e : List Nat × ℚ × ℚ) : ℚ := e.2.1 + e.2.2

/-- Modelled from the spec: one timestep of next() (section 4.3) — expand
every alive beam entry by the retained classes, sort the resulting distinct
texts by combined score descending and retain the top beam_size. -/
def DecoderState.step (st : DecoderState) (row : List ℚ) : DecoderState :=
  let cand := prunedClasses row st.cutoff_prob_ st.cutoff_top_n_.toNat
  let expanded := st.prefixes_.foldl
    (expandEntry st.blank_id_ st.space_id_ st.ext_scorer_ cand) []
  { st with
    abs_time_step_ := st.abs_time_step_ + 1
    prefixes_ := (sortDescBy totalMass expanded).take st.beam_size_.toNat }

/-- Modelled from the spec: next() is absent from this tree; per section 4.3
it executes the per-timestep step once for each row of the supplied chunk and
continues the same beam across calls (the abs-time-step counter only
advances). -/
def DecoderState.next (st : DecoderState) (rows : List (List ℚ)) : DecoderState :=
  rows.foldl DecoderState.step st

/-- End-of-utterance weight: neutral without a scorer. -/
def eouWeight (sc : Option Scorer) (t : List Nat) : ℚ :=
  match sc with
  | none => 1
  | some s => s.eou_weight t

/-- Modelled from the spec: decode() is absent from this tree; per section
4.3 it finalises each beam member's score with the optional end-of-utterance
term, reconstructs its text, and returns (score, text) pairs sorted by
non-increasing score, at most beam_size of them.  It reads the state without
changing it. -/
def DecoderState.decode (st : DecoderState) : List (ℚ × List Nat) :=
  (sortDescBy Prod.fst
    (st.prefixes_.map fun e => (totalMass e * eouWeight st.ext_scorer_ e.1, e.1))).take
    st.beam_size_.toNat

/-- A decode() call as a state transformer: it returns its output and leaves
the state exactly as it found it (decode is declared const / non-destructive). -/
def DecoderState.decodeCall (st : DecoderState) :
    List (ℚ × List Nat) × DecoderState :=
  (st.decode, st)

/-- The single empty-root hypothesis: empty text, all mass on the
blank-ending accumulator (probability 1, i.e. log-probability 0). -/
def rootHyp : List Nat × ℚ × ℚ := ([], 1, 0)

/-- The state produced by a successful init(). -/
def initState (alphabet : Alphabet) (beam_size : Int) (cutoff_prob : ℚ)
    (cutoff_top_n : Int) (ext_scorer : Option Scorer) : DecoderState :=
  { abs_time_step_ := 0
    space_id_ := alphabet.space_id
    blank_id_ := alphabet.blank_id
    beam_size_ := beam_size
    cutoff_prob_ := cutoff_prob
    cutoff_top_n_ := cutoff_top_n
    alphabet_ := alphabet
    ext_scorer_ := ext_scorer
    prefixes_ := [rootHyp] }

/-- Modelled from the spec: init() is absent from this tree; per sections 4.3
and 7 it validates the configuration (beam_size at least 1, cutoff_prob in
(0,1], cutoff_top_n at least 1), returning zero on success after resetting to
the single empty-root hypothesis, and a non-zero status (no exception) on an
invalid configuration. -/
def DecoderState.init (st : DecoderState) (alphabet : Alphabet) (beam_size : Int)
    (cutoff_prob : ℚ) (cutoff_top_n : Int) (ext_scorer : Option Scorer) :
    Int × DecoderState :=
  if beam_size < 1 ∨ cutoff_prob ≤ 0 ∨ 1 < cutoff_prob ∨ cutoff_top_n < 1 then
    (1, st)
  else
    (0, initState alphabet beam_size cutoff_prob cutoff_top_n ext_scorer)

/-- A default-constructed DecoderState (DecoderState() = default). -/
def DecoderState.mk0 : DecoderState :=
  { abs_time_step_ := 0
    space_id_ := 0
    blank_id_ := 0
    beam_size_ := 0
    cutoff_prob_ := 0
    cutoff_top_n_ := 0
    alphabet_ := { size := 0, space_id := 0, blank_id := 0 }
    ext_scorer_ := none
    prefixes_ := [] }

/-- Modelled from the spec: the single-sample free function is absent from
this tree; per section 4.4 it is the convenience wrapper constructing one
DecoderState and running init, next, decode in sequence. -/
def ctc_beam_search_decoder (rows : List (List ℚ)) (alphabet : Alphabet)
    (beam_size : Int) (cutoff_prob : ℚ) (cutoff_top_n : Int)
    (ext_scorer : Option Scorer) : List (ℚ × List Nat) :=
  ((DecoderState.mk0.init alphabet beam_size cutoff_prob cutoff_top_n
    ext_scorer).2.next rows).decode

/-- Modelled from the spec: the batch free function is absent from this tree;
per sections 4.4 and 5 every sample is an independent task over its own
probability slice truncated to its true sequence length, workers share no
mutable state, and results are written into slots indexed by original batch
position, so the returned value is the per-index map of the single-sample
decoder and does not depend on the worker count (num_processes only bounds
scheduling resources). -/
def ctc_beam_search_decoder_batch (batch : List (List (List ℚ)))
    (seq_lengths : List Nat) (alphabet : Alphabet) (beam_size : Int)
    (num_processes : Nat) (cutoff_prob : ℚ) (cutoff_top_n : Int)
    (ext_scorer : Option Scorer) : List (List (ℚ × List Nat)) :=
  (batch.zip seq_lengths).map fun pl =>
    ctc_beam_search_decoder (pl.1.take pl.2) alphabet beam_size cutoff_prob
      cutoff_top_n ext_scorer

/-- Index of the first maximal entry of a probability row. -/
def argmaxIdx (row : List ℚ) : Nat :=
  (row.enum.foldl (fun b x => if b.2 < x.2 then x else b) ((0 : Nat), row.headD 0)).1

/-- Collapse runs of equal consecutive symbols to one occurrence. -/
def collapseRepeats : List Nat → List Nat
  | [] => []
  | [a] => [a]
  | a :: b :: rest =>
    if a = b then collapseRepeats (b :: rest)
    else a :: collapseRepeats (b :: rest)

/-- Greedy best-path CTC decoding: argmax class per timestep, collapse
repeats, then drop blanks. -/
def greedyDecode (blank : Nat) (rows : List (List ℚ)) : List Nat :=
  (collapseRepeats (rows.map argmaxIdx)).filter (fun c => c != blank)

/-- The beam invariant of section 3: at most beam_size entries, all with
distinct decoded texts. -/
def beamInv (st : DecoderState) : Prop :=
  st.prefixes_.length ≤ st.beam_size_.toNat ∧
  (st.prefixes_.map Prod.fst).Nodup

/-- A three-class alphabet with class 0 the blank, as in the design
document's concrete scenarios; the space id is outside the class range. -/
def alphaAB : Alphabet := { size := 2, space_id := 3, blank_id := 0 }

/-- A character-based scorer with neutral weights. -/
def charScorer : Scorer :=
  { char_based := true, ext_weight := fun _ _ => 1, eou_weight := fun _ => 1 }

/-- A decoder state holding a character-based scorer. -/
def stWithCharScorer : DecoderState :=
  { DecoderState.mk0 with ext_scorer_ := some charScorer }

/-- Two consecutive timesteps both favouring class 1 with no blank-dominant
timestep between them. -/
def rowsRepeatA : List (List ℚ) := [[1/10, 8/10, 1/10], [1/10, 8/10, 1/10]]

/-- The design document's concrete scenario: blank at t0 and t2, class 1 at
t1. -/
def rowsSpecScenario : List (List ℚ) :=
  [[8/10, 1/10, 1/10], [1/10, 8/10, 1/10], [8/10, 1/10, 1/10]]

/-- An input on which width-1 prefix beam search and greedy best-path
decoding disagree: at t0 class 1 wins outright; at t1 class 2 wins the single
frame, but the blank and repeat alignments of the prefix of class 1 pool
their mass and outweigh it. -/
def rowsGreedyDiverge : List (List ℚ) :=
  [[35/100, 40/100, 25/100], [33/100, 33/100, 34/100]]

/-! ### Helper lemmas -/

theorem addMass_map_fst (key : List Nat) (db dnb : ℚ)
    (l : List (List Nat × ℚ × ℚ)) :
    (addMass l key db dnb).map Prod.fst =
      if key ∈ l.map Prod.fst then l.map Prod.fst
      else l.map Prod.fst ++ [key] := by
  induction l with
  | nil => simp [addMass]
  | cons e rest ih =>
    by_cases h : e.1 = key
    · simp [addMass, h]
    · simp only [addMass, if_neg h, List.map_cons, List.mem_cons]
      rw [ih]
      by_cases hk : key ∈ rest.map Prod.fst
      · simp [hk, Ne.symm h]
      · simp [hk, Ne.symm h]

theorem nodup_addMass (key : List Nat) (db dnb : ℚ)
    (l : List (List Nat × ℚ × ℚ)) (h : (l.map Prod.fst).Nodup) :
    ((addMass l key db dnb).map Prod.fst).Nodup := by
  rw [addMass_map_fst]
  by_cases hk : key ∈ l.map Prod.fst
  · simpa [hk] using h
  · simp [hk, List.nodup_append, h]

theorem nodup_expandClass (blank space : Nat) (sc : Option Scorer)
    (e : List Nat × ℚ × ℚ) (acc : List (List Nat × ℚ × ℚ)) (cp : Nat × ℚ)
    (h : (acc.map Prod.fst).Nodup) :
    ((expandClass blank space sc e acc cp).map Prod.fst).Nodup := by
  unfold expandClass
  split
  · exact nodup_addMass _ _ _ _ h
  · split
    · exact nodup_addMass _ _ _ _ (nodup_addMass _ _ _ _ h)
    · exact nodup_addMass _ _ _ _ h

theorem nodup_expandEntry (blank space : Nat) (sc : Option Scorer)
    (cand : List (Nat × ℚ)) (e : List Nat × ℚ × ℚ) :
    ∀ acc : List (List Nat × ℚ × ℚ), (acc.map Prod.fst).Nodup →
      ((expandEntry blank space sc cand acc e).map Prod.fst).Nodup := by
  induction cand with
  | nil => intro acc h; exact h
  | cons cp rest ih =>
    intro acc h
    exact ih _ (nodup_expandClass blank space sc e acc cp h)

theorem nodup_foldl_expandEntry (blank space : Nat) (sc : Option Scorer)
    (cand : List (Nat × ℚ)) (entries : List (List Nat × ℚ × ℚ)) :
    ∀ acc : List (List Nat × ℚ × ℚ), (acc.map Prod.fst).Nodup →
      ((entries.foldl (expandEntry blank space sc cand) acc).map Prod.fst).Nodup := by
  induction entries with
  | nil => intro acc h; exact h
  | cons e rest ih =>
    intro acc h
    exact ih _ (nodup_expandEntry blank space sc cand e acc h)

theorem sortDescBy_perm {α : Type} (f : α → ℚ) (l : List α) :
    (sortDescBy f l).Perm l :=
  List.perm_insertionSort _ l

theorem sorted_sortDescBy {α : Type} (f : α → ℚ) (l : List α) :
    List.Sorted (fun a b => f b ≤ f a) (sortDescBy f l) := by
  haveI : IsTotal α fun a b => f b ≤ f a := ⟨fun a b => le_total (f b) (f a)⟩
  haveI : IsTrans α fun a b => f b ≤ f a := ⟨fun _ _ _ h1 h2 => le_trans h2 h1⟩
  exact List.sorted_insertionSort _ l

theorem nodup_sortTake (f : List Nat × ℚ × ℚ → ℚ)
    (l : List (List Nat × ℚ × ℚ)) (n : Nat) (h : (l.map Prod.fst).Nodup) :
    (((sortDescBy f l).take n).map Prod.fst).Nodup := by
  have h2 : ((sortDescBy f l).map Prod.fst).Nodup :=
    ((sortDescBy_perm f l).map Prod.fst).nodup_iff.mpr h
  rw [List.map_take]
  exact List.Nodup.sublist (List.take_sublist n _) h2

theorem step_beam_size (st : DecoderState) (row : List ℚ) :
    (st.step row).beam_size_ = st.beam_size_ := rfl

theorem step_beamInv (st : DecoderState) (row : List ℚ) :
    beamInv (st.step row) := by
  constructor
  · show (st.step row).prefixes_.length ≤ (st.step row).beam_size_.toNat
    simp only [DecoderState.step]
    simpa using List.length_take_le _ _
  · show ((st.step row).prefixes_.map Prod.fst).Nodup
    simp only [DecoderState.step]
    exact nodup_sortTake totalMass _ _
      (nodup_foldl_expandEntry _ _ _ _ _ [] (by simp))

theorem next_beam_size (rows : List (List ℚ)) :
    ∀ st : DecoderState, (st.next rows).beam_size_ = st.beam_size_ := by
  induction rows with
  | nil => intro st; rfl
  | cons r rs ih => intro st; exact (ih (st.step r)).trans (step_beam_size st r)

theorem foldl_next_beam_size (chunks : List (List (List ℚ))) :
    ∀ st : DecoderState,
      (chunks.foldl DecoderState.next st).beam_size_ = st.beam_size_ := by
  induction chunks with
  | nil => intro st; rfl
  | cons c cs ih => intro st; exact (ih _).trans (next_beam_size c st)

theorem next_beamInv (rows : List (List ℚ)) :
    ∀ st : DecoderState, beamInv st → beamInv (st.next rows) := by
  induction rows with
  | nil => intro st h; exact h
  | cons r rs ih => intro st _; exact ih (st.step r) (step_beamInv st r)

theorem foldl_next_beamInv (chunks : List (List (List ℚ))) :
    ∀ st : DecoderState, beamInv st → beamInv (chunks.foldl DecoderState.next st) := by
  induction chunks with
  | nil => intro st h; exact h
  | cons c cs ih => intro st h; exact ih _ (next_beamInv c st h)

theorem init_ok_iff (st : DecoderState) (a : Alphabet) (beam_size : Int)
    (cutoff_prob : ℚ) (cutoff_top_n : Int) (sc : Option Scorer) :
    (st.init a beam_size cutoff_prob cutoff_top_n sc).1 = 0 ↔
      1 ≤ beam_size ∧ 0 < cutoff_prob ∧ cutoff_prob ≤ 1 ∧ 1 ≤ cutoff_top_n := by
  have hiff : ¬(beam_size < 1 ∨ cutoff_prob ≤ 0 ∨ 1 < cutoff_prob ∨ cutoff_top_n < 1) ↔
      (1 ≤ beam_size ∧ 0 < cutoff_prob ∧ cutoff_prob ≤ 1 ∧ 1 ≤ cutoff_top_n) := by
    push_neg
    rfl
  by_cases h : beam_size < 1 ∨ cutoff_prob ≤ 0 ∨ 1 < cutoff_prob ∨ cutoff_top_n < 1
  · rw [DecoderState.init, if_pos h]
    constructor
    · intro h0; exact absurd h0 (by norm_num)
    · intro hv; exact absurd h (fun hc => (hiff.mpr hv) hc)
  · rw [DecoderState.init, if_neg h]
    exact iff_of_true rfl (hiff.mp h)

theorem init_ok_snd (st : DecoderState) (a : Alphabet) (beam_size : Int)
    (cutoff_prob : ℚ) (cutoff_top_n : Int) (sc : Option Scorer)
    (h : (st.init a beam_size cutoff_prob cutoff_top_n sc).1 = 0) :
    (st.init a beam_size cutoff_prob cutoff_top_n sc).2 =
      initState a beam_size cutoff_prob cutoff_top_n sc := by
  by_cases hc : beam_size < 1 ∨ cutoff_prob ≤ 0 ∨ 1 < cutoff_prob ∨ cutoff_top_n < 1
  · rw [DecoderState.init, if_pos hc] at h
    norm_num at h
  · rw [DecoderState.init, if_neg hc]

theorem decode_length_le (st : DecoderState) :
    st.decode.length ≤ st.beam_size_.toNat := by
  unfold DecoderState.decode
  simpa using List.length_take_le _ _

theorem decode_sorted (st : DecoderState) :
    List.Sorted (fun x y : ℚ => y ≤ x) (st.decode.map Prod.fst) := by
  unfold DecoderState.decode
  have h1 := sorted_sortDescBy Prod.fst
    (st.prefixes_.map fun e => (totalMass e * eouWeight st.ext_scorer_ e.1, e.1))
  have h2 := List.Pairwise.sublist (List.take_sublist st.beam_size_.toNat _) h1
  exact List.Pairwise.map _ (fun _ _ hab => hab) h2

/-! ### Claim theorems -/

/-- C1: the claim says has_char_level_scorer holds exactly when the scorer
reports isCharacterBased() true.  The header's body instead tests the
negation (it is a copy of has_word_level_scorer), so on a state holding a
character-based scorer the predicate is false: the character-based mode of
section 4.2 would never be selected by it. -/
theorem char_level_scorer_tests_negation :
    stWithCharScorer.has_char_level_scorer = false ∧
    stWithCharScorer.has_word_level_scorer = false ∧
    charScorer.is_character_based = true :=
  ⟨rfl, rfl, rfl⟩

/-- C2: after a successful init() and any sequence of next() calls, decode()
returns at most beam_size hypotheses and their scores are in non-increasing
order. -/
theorem decode_length_and_sorted (st0 : DecoderState) (a : Alphabet)
    (beam_size : Int) (cutoff_prob : ℚ) (cutoff_top_n : Int) (sc : Option Scorer)
    (chunks : List (List (List ℚ)))
    (h : (st0.init a beam_size cutoff_prob cutoff_top_n sc).1 = 0) :
    (((chunks.foldl DecoderState.next
        (st0.init a beam_size cutoff_prob cutoff_top_n sc).2).decode).length : Int)
        ≤ beam_size ∧
    List.Sorted (fun x y : ℚ => y ≤ x)
      (((chunks.foldl DecoderState.next
        (st0.init a beam_size cutoff_prob cutoff_top_n sc).2).decode).map Prod.fst) := by
  constructor
  · have hbs : (chunks.foldl DecoderState.next
        (st0.init a beam_size cutoff_prob cutoff_top_n sc).2).beam_size_ = beam_size := by
      rw [foldl_next_beam_size, init_ok_snd st0 a beam_size cutoff_prob cutoff_top_n sc h]
      rfl
    have hlen := decode_length_le
      (chunks.foldl DecoderState.next (st0.init a beam_size cutoff_prob cutoff_top_n sc).2)
    rw [hbs] at hlen
    have h1 : 1 ≤ beam_size :=
      ((init_ok_iff st0 a beam_size cutoff_prob cutoff_top_n sc).mp h).1
    omega
  · exact decode_sorted _

theorem decode_length_and_sorted_app :
    ((([rowsRepeatA].foldl DecoderState.next
        (DecoderState.mk0.init alphaAB 2 1 3 none).2).decode).length : Int) ≤ 2 ∧
    List.Sorted (fun x y : ℚ => y ≤ x)
      ((([rowsRepeatA].foldl DecoderState.next
        (DecoderState.mk0.init alphaAB 2 1 3 none).2).decode).map Prod.fst) :=
  decode_length_and_sorted DecoderState.mk0 alphaAB 2 1 3 none [rowsRepeatA] (by decide)

/-- C3: init() returns zero exactly when the configuration is valid
(beam_size at least 1, cutoff_prob in (0,1], cutoff_top_n at least 1) and a
non-zero status otherwise, the failure travelling through the return value of
the total function; on success the state is reset to the single empty-root
hypothesis at absolute time step zero. -/
theorem init_status_and_reset (st : DecoderState) (a : Alphabet) (beam_size : Int)
    (cutoff_prob : ℚ) (cutoff_top_n : Int) (sc : Option Scorer) :
    ((st.init a beam_size cutoff_prob cutoff_top_n sc).1 = 0 ↔
      1 ≤ beam_size ∧ 0 < cutoff_prob ∧ cutoff_prob ≤ 1 ∧ 1 ≤ cutoff_top_n) ∧
    ((st.init a beam_size cutoff_prob cutoff_top_n sc).1 = 0 →
      (st.init a beam_size cutoff_prob cutoff_top_n sc).2.prefixes_ = [rootHyp] ∧
      (st.init a beam_size cutoff_prob cutoff_top_n sc).2.abs_time_step_ = 0) := by
  refine ⟨init_ok_iff st a beam_size cutoff_prob cutoff_top_n sc, fun h => ?_⟩
  rw [init_ok_snd st a beam_size cutoff_prob cutoff_top_n sc h]
  exact ⟨rfl, rfl⟩

theorem init_status_and_reset_app :
    (DecoderState.mk0.init alphaAB 1 1 1 none).1 = 0 ∧
    (DecoderState.mk0.init alphaAB 1 1 1 none).2.prefixes_ = [rootHyp] := by
  have h := init_status_and_reset DecoderState.mk0 alphaAB 1 1 1 none
  have h0 : (DecoderState.mk0.init alphaAB 1 1 1 none).1 = 0 :=
    h.1.mpr (by norm_num)
  exact ⟨h0, (h.2 h0).1⟩

/-- C4: splitting one next() call over the rows of a chunk into two next()
calls over its first t1 rows and its remaining rows leaves the decoder in a
state whose decode() output is the same as that of the single call. -/
theorem next_streaming_split (st : DecoderState) (rows : List (List ℚ)) (t1 : Nat)
    (h1 : 0 < t1) (h2 : t1 < rows.length) :
    ((st.next (rows.take t1)).next (rows.drop t1)).decode = (st.next rows).decode := by
  unfold DecoderState.next
  rw [← List.foldl_append, List.take_append_drop]

theorem next_streaming_split_app :
    (((DecoderState.mk0.init alphaAB 2 1 3 none).2.next (rowsSpecScenario.take 1)).next
        (rowsSpecScenario.drop 1)).decode =
      ((DecoderState.mk0.init alphaAB 2 1 3 none).2.next rowsSpecScenario).decode :=
  next_streaming_split _ rowsSpecScenario 1 (by decide) (by decide)

/-- C5: a retained non-blank class equal to the symbol most recently emitted
by a beam entry merges the entry's nonblank-ending mass back into the same
text (no new character), and only the blank-ending mass extends the text; in
particular two consecutive timesteps favouring class 1 with no blank-dominant
timestep between them decode to the single text [1], not [1,1]. -/
theorem repeat_collapse_and_merge (blank space : Nat) (sc : Option Scorer)
    (acc : List (List Nat × ℚ × ℚ)) (t : List Nat) (pb pnb : ℚ) (c : Nat) (p : ℚ)
    (hc : c ≠ blank) (hl : t.getLast? = some c) :
    expandClass blank space sc (t, pb, pnb) acc (c, p) =
      addMass (addMass acc t 0 (pnb * p)) (t ++ [c]) 0
        (pb * p * extWeight sc space t c) ∧
    (ctc_beam_search_decoder rowsRepeatA alphaAB 1 1 3 none).map Prod.snd = [[1]] := by
  constructor
  · simp [expandClass, hc, hl]
  · with_unfolding_all decide

theorem repeat_collapse_and_merge_app :
    (expandClass 0 3 none ([1], (1/2 : ℚ), (1/3 : ℚ)) [] (1, (1/4 : ℚ)) =
      addMass (addMass [] [1] 0 ((1/3 : ℚ) * (1/4 : ℚ))) ([1] ++ [1]) 0
        ((1/2 : ℚ) * (1/4 : ℚ) * extWeight none 3 [1] 1)) ∧
    (ctc_beam_search_decoder rowsRepeatA alphaAB 1 1 3 none).map Prod.snd = [[1]] :=
  repeat_collapse_and_merge 0 3 none [] [1] (1/2) (1/3) 1 (1/4) (by decide) (by decide)

/-- C6: the batch decoder's result does not depend on the worker count, and
slot i always holds the single-sample decoder's output for sample i's
probability slice truncated to its true sequence length. -/
theorem batch_order_invariance (batch : List (List (List ℚ)))
    (seq_lengths : List Nat) (a : Alphabet) (beam_size : Int) (np : Nat)
    (cutoff_prob : ℚ) (cutoff_top_n : Int) (sc : Option Scorer) (hnp : 1 < np) :
    ctc_beam_search_decoder_batch batch seq_lengths a beam_size np cutoff_prob
        cutoff_top_n sc =
      ctc_beam_search_decoder_batch batch seq_lengths a beam_size 1 cutoff_prob
        cutoff_top_n sc ∧
    ∀ (i : Nat) (pl : List (List ℚ) × Nat),
      (batch.zip seq_lengths)[i]? = some pl →
      (ctc_beam_search_decoder_batch batch seq_lengths a beam_size np cutoff_prob
          cutoff_top_n sc)[i]? =
        some (ctc_beam_search_decoder (pl.1.take pl.2) a beam_size cutoff_prob
          cutoff_top_n sc) := by
  refine ⟨rfl, fun i pl h => ?_⟩
  unfold ctc_beam_search_decoder_batch
  rw [List.getElem?_map, h]
  rfl

theorem batch_order_invariance_app :
    ctc_beam_search_decoder_batch [rowsRepeatA] [2] alphaAB 1 2 1 3 none =
      ctc_beam_search_decoder_batch [rowsRepeatA] [2] alphaAB 1 1 1 3 none ∧
    (ctc_beam_search_decoder_batch [rowsRepeatA] [2] alphaAB 1 2 1 3 none)[0]? =
      some (ctc_beam_search_decoder (rowsRepeatA.take 2) alphaAB 1 1 3 none) :=
  ⟨(batch_order_invariance [rowsRepeatA] [2] alphaAB 1 2 1 3 none (by norm_num)).1,
   (batch_order_invariance [rowsRepeatA] [2] alphaAB 1 2 1 3 none (by norm_num)).2 0
     (rowsRepeatA, 2) (by with_unfolding_all decide)⟩

/-- C7: a decode() call leaves the DecoderState unchanged, and a second
decode() call with no intervening next() returns the identical hypothesis
list. -/
theorem decode_nondestructive (st : DecoderState) :
    st.decodeCall.2 = st ∧
    st.decodeCall.2.decodeCall.1 = st.decodeCall.1 :=
  ⟨rfl, rfl⟩

/-- C8 counterexample: with no scorer and beam width 1 the decoded top
hypothesis is NOT always the greedy best-path decode.  On this input the
greedy path is [1,2], but the blank and repeat alignments of the prefix [1]
pool their mass and outweigh the extension, so the beam decoder returns [1]. -/
theorem beam1_not_greedy :
    ¬ (ctc_beam_search_decoder rowsGreedyDiverge alphaAB 1 1 3 none).map Prod.snd =
      [greedyDecode 0 rowsGreedyDiverge] := by
  with_unfolding_all decide

/-- C8 amended: with no scorer every extension (and the end-of-utterance
term) carries the fixed neutral weight 1, i.e. a zero language-model log
contribution; with beam width 1 the decoder keeps the highest-total-mass
prefix, which on the design document's concrete scenario coincides with the
greedy best-path decode [1]. -/
theorem null_scorer_zero_lm_and_scenario_greedy :
    (∀ (space : Nat) (t : List Nat) (c : Nat), extWeight none space t c = 1) ∧
    (∀ t : List Nat, eouWeight none t = 1) ∧
    (ctc_beam_search_decoder rowsSpecScenario alphaAB 1 1 3 none).map Prod.snd =
      [greedyDecode 0 rowsSpecScenario] ∧
    greedyDecode 0 rowsSpecScenario = [1] :=
  ⟨fun _ _ _ => rfl, fun _ => rfl, by with_unfolding_all decide,
   by with_unfolding_all decide⟩

/-- C9: starting from a successful init(), after any sequence of next() calls
the beam holds at most beam_size entries and its entries carry pairwise
distinct decoded texts; moreover every single per-timestep expansion/pruning
step re-establishes this bound and distinctness unconditionally. -/
theorem beam_bounded_and_distinct (st0 : DecoderState) (a : Alphabet)
    (beam_size : Int) (cutoff_prob : ℚ) (cutoff_top_n : Int) (sc : Option Scorer)
    (chunks : List (List (List ℚ)))
    (h : (st0.init a beam_size cutoff_prob cutoff_top_n sc).1 = 0) :
    ((((chunks.foldl DecoderState.next
        (st0.init a beam_size cutoff_prob cutoff_top_n sc).2).prefixes_).length : Int)
        ≤ beam_size ∧
      (((chunks.foldl DecoderState.next
        (st0.init a beam_size cutoff_prob cutoff_top_n sc).2).prefixes_).map
        Prod.fst).Nodup) ∧
    ∀ (s : DecoderState) (row : List ℚ),
      (s.step row).prefixes_.length ≤ s.beam_size_.toNat ∧
      ((s.step row).prefixes_.map Prod.fst).Nodup := by
  have h1 : 1 ≤ beam_size :=
    ((init_ok_iff st0 a beam_size cutoff_prob cutoff_top_n sc).mp h).1
  have hsnd := init_ok_snd st0 a beam_size cutoff_prob cutoff_top_n sc h
  have hinv0 : beamInv (initState a beam_size cutoff_prob cutoff_top_n sc) := by
    constructor
    · show ([rootHyp]).length ≤ beam_size.toNat
      simp only [List.length_singleton]
      omega
    · show (([rootHyp]).map Prod.fst).Nodup
      simp [rootHyp]
  have hinv := foldl_next_beamInv chunks _ hinv0
  refine ⟨⟨?_, ?_⟩, fun s row => ⟨(step_beamInv s row).1, (step_beamInv s row).2⟩⟩
  · rw [hsnd]
    have hl := hinv.1
    have hbs2 : (chunks.foldl DecoderState.next
        (initState a beam_size cutoff_prob cutoff_top_n sc)).beam_size_ = beam_size := by
      rw [foldl_next_beam_size]
      rfl
    rw [hbs2] at hl
    omega
  · rw [hsnd]
    exact hinv.2

theorem beam_bounded_and_distinct_app :
    ((([rowsRepeatA].foldl DecoderState.next
        (DecoderState.mk0.init alphaAB 2 1 3 none).2).prefixes_).length : Int) ≤ 2 ∧
    ((([rowsRepeatA].foldl DecoderState.next
        (DecoderState.mk0.init alphaAB 2 1 3 none).2).prefixes_).map Prod.fst).Nodup :=
  ⟨(beam_bounded_and_distinct DecoderState.mk0 alphaAB 2 1 3 none [rowsRepeatA]
      (by decide)).1.1,
   (beam_bounded_and_distinct DecoderState.mk0 alphaAB 2 1 3 none [rowsRepeatA]
      (by decide)).1.2⟩

/-- C10: has_word_level_scorer and has_char_level_scorer compute the same
boolean on every state (both are the conjunction of has_scorer with the
negation of is_character_based), and when no scorer is attached both are
false without ever consulting a scorer, since the scorer test guards the
access. -/
theorem word_and_char_level_scorer_agree (st : DecoderState) :
    st.has_word_level_scorer = st.has_char_level_scorer ∧
    (st.ext_scorer_ = none →
      st.has_word_level_scorer = false ∧ st.has_char_level_scorer = false) := by
  constructor
  · cases h : st.ext_scorer_ with
    | none =>
      simp [DecoderState.has_word_level_scorer, DecoderState.has_char_level_scorer, h]
    | some s =>
      simp [DecoderState.has_word_level_scorer, DecoderState.has_char_level_scorer, h]
  · intro h
    simp [DecoderState.has_word_level_scorer, DecoderState.has_char_level_scorer, h]

theorem word_and_char_level_scorer_agree_app :
    DecoderState.mk0.has_word_level_scorer = DecoderState.mk0.has_char_level_scorer ∧
    (DecoderState.mk0.ext_scorer_ = none →
      DecoderState.mk0.has_word_level_scorer = false ∧
      DecoderState.mk0.has_char_level_scorer = false) :=
  word_and_char_level_scorer_agree DecoderState.mk0
